import Mathlib

/-!
Verification development for the metabolomics PDF-extraction pipeline
(`gpt_process_pdf_extract_workflow.py`, `pdf_content_extraction.py`,
`pdf_content_extraction_grobid.py`, `workflow_analysis.py`).

The Python sources are shallowly embedded: every external collaborator
(the OpenAI client, the GROBID HTTP endpoint, `time.sleep`) is modelled
as an explicit parameter or as a counter in the returned state, and the
Python `json` module is modelled by an executable JSON value type with a
renderer (for `json.dumps`) and a parser (for `json.loads`).
-/

namespace AshMady

/-- A JSON value, as produced by `json.loads` / consumed by `json.dumps`.
The programs only ever build strings, integers, booleans, arrays and
objects (the server-enforced response schemas contain no floats and no
nulls), so those are the constructors modelled. Object members keep
their insertion order, exactly as Python dicts do. -/
inductive Json where
  | str (s : String)
  | int (n : Int)
  | bool (b : Bool)
  | arr (items : List Json)
  | obj (pairs : List (String × Json))

/-- Opening brace character (written via `Char.ofNat` to keep string
literals brace-free). -/
def lbrace : Char := Char.ofNat 123

/-- Closing brace character. -/
def rbrace : Char := Char.ofNat 125

/-- Lower-case hexadecimal digit for `n % 16`. -/
def hexChar (n : Nat) : Char :=
  if n < 10 then Char.ofNat (48 + n) else Char.ofNat (87 + n)

/-- JSON escaping of one character, as `json.dumps(..., ensure_ascii=False)`
does it: quote and backslash get a backslash escape, the common control
characters get their short forms, any other control character becomes a
`\u00XX` escape, and everything else is passed through. -/
def escChar (c : Char) : List Char :=
  if c = '"' then ['\\', '"']
  else if c = '\\' then ['\\', '\\']
  else if c = '\n' then ['\\', 'n']
  else if c = '\r' then ['\\', 'r']
  else if c = '\t' then ['\\', 't']
  else if c = Char.ofNat 8 then ['\\', 'b']
  else if c = Char.ofNat 12 then ['\\', 'f']
  else if c.toNat < 32 then
    ['\\', 'u', '0', '0', hexChar (c.toNat / 16), hexChar (c.toNat % 16)]
  else [c]

/-- JSON escaping of a whole string body (no surrounding quotes). -/
def escString (s : String) : List Char :=
  s.toList.foldr (fun c r => escChar c ++ r) []

/-- The decimal digit character for `n % 10`. -/
def decChar (n : Nat) : Char := Char.ofNat (48 + n % 10)

/-- Decimal digit characters of a natural number, most significant first. -/
def natChars (n : Nat) : List Char :=
  if n < 10 then [decChar n]
  else natChars (n / 10) ++ [decChar n]
termination_by n
decreasing_by exact Nat.div_lt_self (by omega) (by omega)

/-- Decimal rendering of an integer: optional minus sign, then digits. -/
def intChars (i : Int) : List Char :=
  if i < 0 then '-' :: natChars i.natAbs else natChars i.natAbs

mutual
/-- Render a JSON value to characters the way `json.dumps` with its
default separators does: `", "` between array items and object members,
`": "` after each key. -/
def dumpVal : Json → List Char
  | .str s => '"' :: (escString s ++ ['"'])
  | .int n => intChars n
  | .bool true => ['t', 'r', 'u', 'e']
  | .bool false => ['f', 'a', 'l', 's', 'e']
  | .arr items => '[' :: (dumpItems items ++ [']'])
  | .obj pairs => lbrace :: (dumpPairs pairs ++ [rbrace])

/-- Render array items, separated by `", "`. -/
def dumpItems : List Json → List Char
  | [] => []
  | [v] => dumpVal v
  | v :: v2 :: vs => dumpVal v ++ ',' :: ' ' :: dumpItems (v2 :: vs)

/-- Render object members, `"key": value`, separated by `", "`. -/
def dumpPairs : List (String × Json) → List Char
  | [] => []
  | [(k, v)] => '"' :: (escString k ++ '"' :: ':' :: ' ' :: dumpVal v)
  | (k, v) :: p2 :: ps =>
      '"' :: (escString k ++ '"' :: ':' :: ' ' :: (dumpVal v ++ ',' :: ' ' :: dumpPairs (p2 :: ps)))
end

/-- `json.dumps` of a value, as a Lean string. -/
def dumps (v : Json) : String := ⟨dumpVal v⟩

/-- One step of an extracted workflow, following the
`metabolomics_workflow_extraction` response schema
(`gpt_process_pdf_extract_workflow.py`, lines 138-180). -/
structure WorkflowStep where
  step_number : Int
  step_name : String
  description : String
  category : String
  tools_software : List String
  databases_apis : List String
  inputs : List String
  outputs : List String
  is_explicit_in_paper : Bool
deriving DecidableEq, Repr

/-- A whole extracted workflow, following the outer object of the
`metabolomics_workflow_extraction` response schema (lines 133-198). -/
structure WorkflowDescription where
  paper_has_untargeted_metabolomics : Bool
  workflow_steps : List WorkflowStep
  unspecified_or_omitted_steps : List String
  notes_on_ambiguity : String
deriving DecidableEq, Repr

/-- The JSON object a `WorkflowStep` serializes to, keys in the dict's
insertion order. -/
def WorkflowStep.toJson (s : WorkflowStep) : Json :=
  .obj [("step_number", .int s.step_number),
        ("step_name", .str s.step_name),
        ("description", .str s.description),
        ("category", .str s.category),
        ("tools_software", .arr (s.tools_software.map .str)),
        ("databases_apis", .arr (s.databases_apis.map .str)),
        ("inputs", .arr (s.inputs.map .str)),
        ("outputs", .arr (s.outputs.map .str)),
        ("is_explicit_in_paper", .bool s.is_explicit_in_paper)]

/-- The JSON object a `WorkflowDescription` serializes to, keys in the
dict's insertion order. -/
def WorkflowDescription.toJson (w : WorkflowDescription) : Json :=
  .obj [("paper_has_untargeted_metabolomics", .bool w.paper_has_untargeted_metabolomics),
        ("workflow_steps", .arr (w.workflow_steps.map WorkflowStep.toJson)),
        ("unspecified_or_omitted_steps", .arr (w.unspecified_or_omitted_steps.map .str)),
        ("notes_on_ambiguity", .str w.notes_on_ambiguity)]

/-- The fixed instruction block prepended to every extraction request
(`workflow_prompt_instructions`, lines 109-125). -/
def workflow_prompt_instructions : String :=
  "\nYou are an expert in untargeted metabolomics and workflow design.\n\nGiven the full text of a metabolomics paper, extract ONLY the untargeted metabolomics workflow\nused in the study. Focus on the main experimental and computational steps, in execution order.\nThe workflow you extract should be detailed enough for a researcher to read and carry out.\nDo not omit any details directly relevant to the workflow. Include any relevant tools/APIs/databases\nused in the workflow.\n\nGuidelines:\n- Include only steps that are explicitly described or clearly implied from the text.\n- Do NOT invent tools, databases, or steps that are not supported by the paper.\n- Use concise, technical language suitable for a computational systems biology researcher.\n- If something is missing or unclear in the paper, mark it as \"unspecified\" rather than guessing.\n\nReturn your answer as JSON following the provided schema exactly.\n"

/-- The user prompt built from the paper's full text (lines 211-215);
`String.trim` models Python's `str.strip`. -/
def mkUserPrompt (full_text : String) : String :=
  workflow_prompt_instructions.trim ++ "\n\nFull paper text:\n" ++ full_text.trim ++ "\n"

/-- The text-generation service behind `client.chat.completions.create`
plus the subsequent `json.loads`, both of which sit inside the one
`try` block: given the user prompt and the (1-based) attempt number it
either yields a schema-conforming workflow or raises. -/
abbrev GptService : Type := String → Int → Except String WorkflowDescription

/-- The error payload returned after exhausting all retries
(lines 240-245). -/
def retryFailureSentinel (max_retries : Int) (e : String) : WorkflowDescription :=
  { paper_has_untargeted_metabolomics := false
    workflow_steps := []
    unspecified_or_omitted_steps := []
    notes_on_ambiguity :=
      "Extraction failed after " ++ toString max_retries ++ " attempts: " ++ e }

/-- What one call of `extract_workflow_from_full_text` did: the value the
Python function returned (`none` models Python's implicit `None` when the
loop body never runs), how many service calls it made, and the total time
it passed to `time.sleep`. -/
structure ExtractOutcome where
  result : Option WorkflowDescription
  calls : Nat
  slept : ℚ
deriving DecidableEq, Repr

/-- The retry loop of `extract_workflow_from_full_text` (lines 217-246):
`fuel` is the number of loop iterations still to run, `attempt` the
1-based index of the current one. On success the parsed result is
returned at once; on an exception the loop returns the failure sentinel
if this was the last attempt and otherwise sleeps `retry_delay` and goes
round again. -/
def extractLoop (service : GptService) (prompt : String) (max_retries : Int)
    (retry_delay : ℚ) : Nat → Int → Nat → ℚ → ExtractOutcome
  | 0, _, calls, slept => ⟨none, calls, slept⟩
  | fuel + 1, attempt, calls, slept =>
      match service prompt attempt with
      | .ok parsed => ⟨some parsed, calls + 1, slept⟩
      | .error e =>
          if attempt = max_retries then
            ⟨some (retryFailureSentinel max_retries e), calls + 1, slept⟩
          else
            extractLoop service prompt max_retries retry_delay
              fuel (attempt + 1) (calls + 1) (slept + retry_delay)

/-- `extract_workflow_from_full_text(full_text, max_retries, retry_delay)`
(lines 202-246): builds the user prompt, then runs the retry loop for
`range(1, max_retries + 1)`, i.e. `max_retries` iterations starting at
attempt 1 (none at all when `max_retries <= 0`). -/
def extract_workflow_from_full_text (service : GptService) (full_text : String)
    (max_retries : Int) (retry_delay : ℚ) : ExtractOutcome :=
  extractLoop service (mkUserPrompt full_text) max_retries retry_delay
    max_retries.toNat 1 0 0

/-- The step_number values of a description's steps are pairwise strictly
increasing in list order (which implies they are unique). -/
def stepNumbersAscending (w : WorkflowDescription) : Prop :=
  (w.workflow_steps.map (fun s => s.step_number)).Pairwise (· < ·)

instance (w : WorkflowDescription) : Decidable (stepNumbersAscending w) :=
  List.instDecidablePairwise _

/-! ### The cloud-assistant adapter (`extract_pdf_content`, lines 16-104)

Each remote step is one field of `CloudEnv`: `Except.error` means the
call raised. `json.loads` on the assistant's reply is `loadsResult`:
`none` means it raised (the bare `except` then builds the fallback
record); a non-object value makes the later `result['filename'] = ...`
item assignment raise a `TypeError`, caught by the outer handler. -/

/-- Outcomes of the remote calls `extract_pdf_content` makes, plus the
`json.loads` of the reply text. -/
structure CloudEnv where
  upload : Except String String
  createAssistant : Except String String
  createThread : Except String String
  runAndPoll : Except String String
  listMessages : Except String String
  loadsResult : String → Option Json

/-- Which remote resources an `extract_pdf_content` call created and
which it deleted before returning. -/
structure CloudState where
  fileUploaded : Bool
  fileDeleted : Bool
  assistantCreated : Bool
  assistantDeleted : Bool
deriving DecidableEq, Repr

/-- A per-file record, i.e. the Python dict a backend adapter (or the
combined pipeline) returns for one PDF. -/
abbrev FileRecord : Type := List (String × Json)

/-- The `{'filename': ..., 'error': ...}` record built by every adapter's
exception handler. -/
def errorRecord (filename msg : String) : FileRecord :=
  [("filename", .str filename), ("error", .str msg)]

/-- Python dict item assignment `d[k] = v`: replace the first binding of
`k` in place, or append a new binding at the end. -/
def setKey : FileRecord → String → Json → FileRecord
  | [], k, v => [(k, v)]
  | (k2, v2) :: ps, k, v =>
      if k2 = k then (k, v) :: ps else (k2, v2) :: setKey ps k v

/-- Python `k in d`. -/
def lookupKey : FileRecord → String → Option Json
  | [], _ => none
  | (k2, v) :: ps, k => if k2 = k then some v else lookupKey ps k

/-- Whether the record carries the `error` key. -/
def hasError (r : FileRecord) : Bool := (lookupKey r "error").isSome

/-- The structured fallback built when the assistant's reply is not valid
JSON (lines 83-90): all fields empty except `full_text`, which keeps the
raw reply. -/
def fallbackRecord (response_content : String) : FileRecord :=
  [("title", .str ""), ("authors", .str ""), ("abstract", .str ""),
   ("full_text", .str response_content),
   ("figure_captions", .str ""), ("table_captions", .str "")]

/-- `extract_pdf_content(pdf_path, client)` (lines 16-104): upload the
file, create an ephemeral assistant and a thread, run to a terminal
status, read and parse the reply, stamp the filename, delete the
uploaded file and the assistant, and return the record; any exception
anywhere in the `try` block is converted to an error record — on that
path the two cleanup calls never run. -/
def extract_pdf_content (env : CloudEnv) (pdfName : String) :
    FileRecord × CloudState :=
  match env.upload with
  | .error e => (errorRecord pdfName e, ⟨false, false, false, false⟩)
  | .ok _ =>
    match env.createAssistant with
    | .error e => (errorRecord pdfName e, ⟨true, false, false, false⟩)
    | .ok _ =>
      match env.createThread with
      | .error e => (errorRecord pdfName e, ⟨true, false, true, false⟩)
      | .ok _ =>
        match env.runAndPoll with
        | .error e => (errorRecord pdfName e, ⟨true, false, true, false⟩)
        | .ok status =>
          if status = "completed" then
            match env.listMessages with
            | .error e => (errorRecord pdfName e, ⟨true, false, true, false⟩)
            | .ok response_content =>
              match env.loadsResult response_content with
              | some (.obj kvs) =>
                  (setKey kvs "filename" (.str pdfName), ⟨true, true, true, true⟩)
              | some _ =>
                  (errorRecord pdfName "TypeError: response JSON is not an object",
                   ⟨true, false, true, false⟩)
              | none =>
                  (setKey (fallbackRecord response_content) "filename" (.str pdfName),
                   ⟨true, true, true, true⟩)
          else
            (errorRecord pdfName ("Run failed with status: " ++ status),
             ⟨true, false, true, false⟩)

/-! ### The combined pipeline (`process_pdf_with_workflow`, lines 250-293) -/

/-- Python truthiness of a JSON value, for `if not full_text`. -/
def jsonTruthy : Json → Bool
  | .str s => !s.isEmpty
  | .int n => n != 0
  | .bool b => b
  | .arr items => !items.isEmpty
  | .obj pairs => !pairs.isEmpty

/-- The `workflow_result` built without any service call when no full
text was extracted (lines 273-278). -/
def noFullTextSentinel : WorkflowDescription :=
  { paper_has_untargeted_metabolomics := false
    workflow_steps := []
    unspecified_or_omitted_steps := []
    notes_on_ambiguity := "No full text extracted from PDF." }

/-- What `process_pdf_with_workflow` comes back with: the dict it
returns, or an exception that escapes it (nothing in the function
catches the `AttributeError` a non-string truthy `full_text` value
would raise inside `extract_workflow_from_full_text`). -/
inductive ProcessOutcome where
  | ret (record : FileRecord)
  | crash (msg : String)

/-- One `process_pdf_with_workflow` call, together with the number of
text-generation calls and the total retry sleep it caused. -/
structure ProcessResult where
  outcome : ProcessOutcome
  extractorCalls : Nat
  extractorSlept : ℚ

/-- `process_pdf_with_workflow(pdf_path, client)` (lines 250-293): run
the adapter; pass an error record straight through; with empty
`full_text` attach the serialized no-full-text sentinel without calling
the extractor; otherwise run `extract_workflow_from_full_text` with its
default `max_retries=3, retry_delay=5.0` and attach its serialized
result under `workflow_json`. -/
def process_pdf_with_workflow (env : CloudEnv) (service : GptService)
    (pdfName : String) : ProcessResult :=
  let pdf_content := (extract_pdf_content env pdfName).1
  if hasError pdf_content then ⟨.ret pdf_content, 0, 0⟩
  else
    let full_text := (lookupKey pdf_content "full_text").getD (.str "")
    if !jsonTruthy full_text then
      ⟨.ret (setKey pdf_content "workflow_json"
              (.str (dumps noFullTextSentinel.toJson))), 0, 0⟩
    else
      match full_text with
      | .str s =>
          let eo := extract_workflow_from_full_text service s 3 5
          let wf : String := match eo.result with
            | some w => dumps w.toJson
            | none => "null"
          ⟨.ret (setKey pdf_content "workflow_json" (.str wf)), eo.calls, eo.slept⟩
      | _ => ⟨.crash "AttributeError: full_text has no method strip", 0, 0⟩

/-! ### The batch driver (`batch_process_pdfs_with_workflows`, lines 295-359) -/

/-- What one whole batch run leaves behind. `successCsvRows` is the row
count of `<name>.csv`, which (like `<name>_workflows.json`) is written
only when the success list is non-empty; `<name>_failed.csv` is written
only when the failure list is non-empty. -/
structure BatchOutcome where
  results : List FileRecord
  failed : List FileRecord
  successCsvWritten : Bool
  successCsvRows : Nat
  workflowsJsonWritten : Bool
  failedCsvWritten : Bool

/-- The driver's loop (lines 308-323): each record is appended to
`results` or to `failed` according to `'error' not in result`; an
exception escaping `process_pdf_with_workflow` aborts the run before
any file is written (`none`). -/
def batchLoop (env : String → CloudEnv) (service : GptService) :
    List String → List FileRecord → List FileRecord →
    Option (List FileRecord × List FileRecord)
  | [], results, failed => some (results, failed)
  | p :: ps, results, failed =>
      match (process_pdf_with_workflow (env p) service p).outcome with
      | .crash _ => none
      | .ret r =>
          if !hasError r then batchLoop env service ps (results ++ [r]) failed
          else batchLoop env service ps results (failed ++ [r])

/-- `batch_process_pdfs_with_workflows(pdf_dir, ..., max_pdfs)`
(lines 295-359): truncate the enumerated paths to `max_pdfs`, process
each, then write `<name>.csv` and `<name>_workflows.json` when any file
succeeded and `<name>_failed.csv` when any failed. -/
def batch_process_pdfs_with_workflows (env : String → CloudEnv)
    (service : GptService) (pdfPaths : List String) (maxPdfs : Nat) :
    Option BatchOutcome :=
  match batchLoop env service (pdfPaths.take maxPdfs) [] [] with
  | none => none
  | some (results, failed) =>
      some ⟨results, failed, !results.isEmpty, results.length,
            !results.isEmpty, !failed.isEmpty⟩

/-! ### The self-hosted (GROBID) variant (`pdf_content_extraction_grobid.py`) -/

/-- What `main` in the GROBID variant leaves behind. Its
`save_extracted_papers` writes `<name>.csv` unconditionally and
`<name>_failed.csv` only when the failure list is non-empty
(lines 137-146). -/
structure GrobidOutcome where
  results : List FileRecord
  failed : List FileRecord
  extractCalls : Nat
  successCsvWritten : Bool
  failedCsvWritten : Bool

/-- The per-file loop of the GROBID `main` (lines 175-188): with the
service alive, call `extract_with_grobid` (modelled by the parameter
`grobidExtract`, whose result is a content record or an error record);
otherwise build the fixed `'GROBID not available'` error record without
any call. Records are then split on the presence of `'error'`. -/
def grobidLoop (live : Bool) (grobidExtract : String → FileRecord) :
    List String → List FileRecord → List FileRecord → Nat →
    List FileRecord × List FileRecord × Nat
  | [], results, failed, calls => (results, failed, calls)
  | p :: ps, results, failed, calls =>
      let (r, calls2) :=
        if live then (grobidExtract p, calls + 1)
        else (errorRecord p "GROBID not available", calls)
      if !hasError r then grobidLoop live grobidExtract ps (results ++ [r]) failed calls2
      else grobidLoop live grobidExtract ps results (failed ++ [r]) calls2

/-- `main(path_to_pdfs, output_name, output_dir_name, use_grobid)` of the
GROBID variant (lines 148-196): when `use_grobid` is set, probe
`GET /api/isalive` once — any status other than 200, or an exception,
clears `use_grobid` for the whole run. `probe` is the probe's outcome
(`.ok` carries `response.status_code`, `.error` a raised exception). -/
def grobid_main (use_grobid : Bool) (probe : Except String Int)
    (grobidExtract : String → FileRecord) (pdfPaths : List String) :
    GrobidOutcome :=
  let live := if use_grobid then
      (match probe with
       | .ok status => status == 200
       | .error _ => false)
    else false
  let (results, failed, calls) := grobidLoop live grobidExtract pdfPaths [] [] 0
  ⟨results, failed, calls, true, !failed.isEmpty⟩

/-! ### The workflow classifier (`workflow_analysis.py`) -/

/-- The 20 fields of the `workflow_analysis` response schema
(`workflow_analysis.py`, lines 42-94). -/
structure AnalysisFields where
  has_untargeted_metabolomics : Bool
  uses_ms : Bool
  uses_lcms : Bool
  uses_gcms : Bool
  uses_msms : Bool
  sample_type : String
  has_sample_prep : Bool
  has_extraction : Bool
  has_normalization : Bool
  uses_pca : Bool
  uses_plsda : Bool
  has_statistical_analysis : Bool
  has_pathway_analysis : Bool
  uses_kegg : Bool
  num_workflow_steps : Int
  num_tools_mentioned : Int
  num_databases_mentioned : Int
  has_annotation : Bool
  workflow_completeness : Int
  main_analytical_platform : String
deriving DecidableEq, Repr

/-- The record `analyze_workflow_with_gpt` returns: the analysis fields,
the filename stamped into the dict, and the `error` key (present only on
the exception path). -/
structure WorkflowAnalysis where
  filename : String
  fields : AnalysisFields
  error : Option String
deriving DecidableEq, Repr

/-- The fixed analysis prompt (`analysis_prompt`, lines 15-40),
abridged to its stable head; its full text is inert here because the
service is an opaque parameter of the model. -/
def analysis_prompt : String :=
  "\nAnalyze this metabolomics workflow and extract the following information:\n"

/-- The all-sentinel analysis returned on any exception (lines 129-155):
every boolean false, every numeric 0, the two free-text analysis fields
the literal string `"error"`, plus the exception message under `error`. -/
def errorAnalysis (filename e : String) : WorkflowAnalysis :=
  { filename := filename
    fields :=
      { has_untargeted_metabolomics := false
        uses_ms := false
        uses_lcms := false
        uses_gcms := false
        uses_msms := false
        sample_type := "error"
        has_sample_prep := false
        has_extraction := false
        has_normalization := false
        uses_pca := false
        uses_plsda := false
        has_statistical_analysis := false
        has_pathway_analysis := false
        uses_kegg := false
        num_workflow_steps := 0
        num_tools_mentioned := 0
        num_databases_mentioned := 0
        has_annotation := false
        workflow_completeness := 0
        main_analytical_platform := "error" }
    error := some e }

/-- One classifier call plus its parse, both inside the one `try` block;
the prompt embeds the serialized workflow. -/
abbrev AnalysisService : Type := String → Except String AnalysisFields

/-- `analyze_workflow_with_gpt(workflow_data, filename)` (lines 98-155):
serialize the workflow into the prompt, make exactly one service call
(no retry), stamp the filename on success, and degrade to the
all-sentinel record carrying the exception message on any failure. The
second component counts the service calls made. -/
def analyze_workflow_with_gpt (service : AnalysisService)
    (workflow_data : Json) (filename : String) : WorkflowAnalysis × Nat :=
  let prompt := analysis_prompt ++ "\n\nWorkflow to analyze:\n" ++ dumps workflow_data
  match service prompt with
  | .ok f => ({ filename := filename, fields := f, error := none }, 1)
  | .error e => (errorAnalysis filename e, 1)

/-! ### Input enumeration patterns (one per entry point) -/

/-- The glob pattern of `batch_process_pdfs_with_workflows`
(`gpt_process_pdf_extract_workflow.py`, line 303). -/
def gptBatchGlob : String := "*/*.pdf"

/-- The glob pattern of the layout-parser (papermage) standalone `main`
(`pdf_content_extraction.py`, line 125). -/
def papermageMainGlob : String := "*/*.pdf"

/-- The glob pattern of the GROBID variant's `main`
(`pdf_content_extraction_grobid.py`, line 169). -/
def grobidMainGlob : String := "*/*.pdf"

/-- Whether a file name ends in `.pdf`. -/
def endsWithDotPdf (f : String) : Bool :=
  match f.toList.reverse with
  | 'f' :: 'd' :: 'p' :: '.' :: _ => true
  | _ => false

/-- `Path.glob` semantics for the two patterns the entry points use: a
path (as segments relative to the input root) matches `*.pdf` when it is
a direct child whose name ends in `.pdf`, and matches `*/*.pdf` when it
sits exactly one directory down. -/
def globMatches (pattern : String) (segments : List String) : Bool :=
  if pattern = "*.pdf" then
    match segments with
    | [f] => endsWithDotPdf f
    | _ => false
  else if pattern = "*/*.pdf" then
    match segments with
    | [_, f] => endsWithDotPdf f
    | _ => false
  else false

/-- The relative paths an entry point enumerates from a directory tree. -/
def globEnumerate (pattern : String) (tree : List (List String)) :
    List (List String) :=
  tree.filter (globMatches pattern)

/-! ### A model of `json.loads` on the subset of JSON the programs emit

Strings, integers, booleans, arrays and objects, with JSON whitespace
and the string escapes that `dumps` produces. The parser recurses on an
explicit fuel; `loads` supplies `input length + 1`, which the round-trip
lemmas show is always enough for parsing rendered output. -/

/-- JSON whitespace. -/
def isWsChar (c : Char) : Bool := c == ' ' || c == '\n' || c == '\t' || c == '\r'

/-- Drop leading JSON whitespace. -/
def dropWs : List Char → List Char
  | c :: cs => if isWsChar c then dropWs cs else c :: cs
  | [] => []

/-- ASCII decimal digit test. -/
def isDigitChar (c : Char) : Bool := 48 ≤ c.toNat && c.toNat ≤ 57

/-- Split off the maximal leading run of decimal digits. -/
def grabDigits : List Char → List Char × List Char
  | c :: cs =>
      if isDigitChar c then
        let (ds, r) := grabDigits cs
        (c :: ds, r)
      else ([], c :: cs)
  | [] => ([], [])

/-- The number a digit run denotes. -/
def digitsVal (ds : List Char) : Nat :=
  ds.foldl (fun a c => a * 10 + (c.toNat - 48)) 0

/-- The input ahead cannot extend a digit run: empty, or headed by a
non-digit. -/
def notDigitStart : List Char → Bool
  | [] => true
  | c :: _ => !isDigitChar c

/-- The value of one hexadecimal digit. -/
def hexDigitVal (c : Char) : Option Nat :=
  if 48 ≤ c.toNat && c.toNat ≤ 57 then some (c.toNat - 48)
  else if 97 ≤ c.toNat && c.toNat ≤ 102 then some (c.toNat - 87)
  else if 65 ≤ c.toNat && c.toNat ≤ 70 then some (c.toNat - 55)
  else none

/-- The code point of a `\uXXXX` escape. -/
def hexQuad (a b c d : Char) : Option Nat :=
  match hexDigitVal a, hexDigitVal b, hexDigitVal c, hexDigitVal d with
  | some va, some vb, some vc, some vd => some (((va * 16 + vb) * 16 + vc) * 16 + vd)
  | _, _, _, _ => none

/-- The character a single-letter escape denotes. -/
def shortEscape (c : Char) : Option Char :=
  if c = '"' then some '"'
  else if c = '\\' then some '\\'
  else if c = '/' then some '/'
  else if c = 'n' then some '\n'
  else if c = 'r' then some '\r'
  else if c = 't' then some '\t'
  else if c = 'b' then some (Char.ofNat 8)
  else if c = 'f' then some (Char.ofNat 12)
  else none

/-- Parse a string body after its opening quote, unescaping as we go. -/
def parseStringBody (acc : List Char) : List Char → Option (String × List Char)
  | '"' :: rest => some (⟨acc⟩, rest)
  | '\\' :: 'u' :: a :: b :: c :: d :: rest =>
      match hexQuad a b c d with
      | some n => parseStringBody (acc ++ [Char.ofNat n]) rest
      | none => none
  | '\\' :: e :: rest =>
      match shortEscape e with
      | some ch => parseStringBody (acc ++ [ch]) rest
      | none => none
  | c :: rest => parseStringBody (acc ++ [c]) rest
  | [] => none

/-- Parse an integer literal (optional minus sign, then digits). -/
def parseIntVal (cs : List Char) : Option (Json × List Char) :=
  match cs with
  | '-' :: r =>
      let (ds, r2) := grabDigits r
      if ds.isEmpty then none else some (.int (-(digitsVal ds : Int)), r2)
  | _ =>
      let (ds, r2) := grabDigits cs
      if ds.isEmpty then none else some (.int ((digitsVal ds : Nat) : Int), r2)

mutual
/-- Parse one JSON value, skipping leading whitespace. -/
def parseVal : Nat → List Char → Option (Json × List Char)
  | 0, _ => none
  | fuel + 1, cs =>
      match dropWs cs with
      | 't' :: 'r' :: 'u' :: 'e' :: r => some (.bool true, r)
      | 'f' :: 'a' :: 'l' :: 's' :: 'e' :: r => some (.bool false, r)
      | '"' :: r =>
          match parseStringBody [] r with
          | some (s, r2) => some (.str s, r2)
          | none => none
      | '[' :: r =>
          match dropWs r with
          | ']' :: r2 => some (.arr [], r2)
          | r2 =>
              match parseItems fuel r2 with
              | some (vs, r3) => some (.arr vs, r3)
              | none => none
      | c :: r =>
          if c = lbrace then
            match dropWs r with
            | c2 :: r2 =>
                if c2 = rbrace then some (.obj [], r2)
                else
                  match parsePairs fuel (c2 :: r2) with
                  | some (ps, r3) => some (.obj ps, r3)
                  | none => none
            | [] => none
          else if c = '-' || isDigitChar c then parseIntVal (c :: r)
          else none
      | [] => none

/-- Parse one-or-more comma-separated array items up to the closing
bracket. -/
def parseItems : Nat → List Char → Option (List Json × List Char)
  | 0, _ => none
  | fuel + 1, cs =>
      match parseVal fuel cs with
      | none => none
      | some (v, r) =>
          match dropWs r with
          | ',' :: r2 =>
              match parseItems fuel (dropWs r2) with
              | some (vs, r3) => some (v :: vs, r3)
              | none => none
          | ']' :: r2 => some ([v], r2)
          | _ => none

/-- Parse one-or-more comma-separated object members up to the closing
brace. -/
def parsePairs : Nat → List Char → Option (List (String × Json) × List Char)
  | 0, _ => none
  | fuel + 1, cs =>
      match dropWs cs with
      | '"' :: r =>
          match parseStringBody [] r with
          | none => none
          | some (k, r1) =>
              match dropWs r1 with
              | ':' :: r2 =>
                  match parseVal fuel (dropWs r2) with
                  | none => none
                  | some (v, r3) =>
                      match dropWs r3 with
                      | ',' :: r4 =>
                          match parsePairs fuel (dropWs r4) with
                          | some (ps, r5) => some ((k, v) :: ps, r5)
                          | none => none
                      | c :: r4 => if c = rbrace then some ([(k, v)], r4) else none
                      | [] => none
              | _ => none
      | _ => none
end

/-- `json.loads` on a character list: parse one value and require only
whitespace after it. -/
def jsonParse (cs : List Char) : Option Json :=
  match parseVal (cs.length + 1) cs with
  | some (v, r) => if (dropWs r).isEmpty then some v else none
  | none => none

/-- `json.loads` on a string. -/
def loads (s : String) : Option Json := jsonParse s.toList

/-! ### Reading a parsed workflow back out of its JSON form -/

/-- The string a JSON value holds, if it is one. -/
def asStr : Json → Option String
  | .str s => some s
  | _ => none

/-- The integer a JSON value holds, if it is one. -/
def asInt : Json → Option Int
  | .int n => some n
  | _ => none

/-- The boolean a JSON value holds, if it is one. -/
def asBool : Json → Option Bool
  | .bool b => some b
  | _ => none

/-- The items a JSON value holds, if it is an array. -/
def asArr : Json → Option (List Json)
  | .arr items => some items
  | _ => none

/-- Field lookup on a JSON object. -/
def objGet (j : Json) (k : String) : Option Json :=
  match j with
  | .obj ps => lookupKey ps k
  | _ => none

/-- Decode a JSON array of strings. -/
def decodeStrs : List Json → Option (List String)
  | [] => some []
  | j :: js =>
      match asStr j, decodeStrs js with
      | some s, some ss => some (s :: ss)
      | _, _ => none

/-- Decode one workflow step from its JSON object. -/
def WorkflowStep.fromJson (j : Json) : Option WorkflowStep := do
  let step_number ← (objGet j "step_number").bind asInt
  let step_name ← (objGet j "step_name").bind asStr
  let description ← (objGet j "description").bind asStr
  let category ← (objGet j "category").bind asStr
  let tools_software ← ((objGet j "tools_software").bind asArr).bind decodeStrs
  let databases_apis ← ((objGet j "databases_apis").bind asArr).bind decodeStrs
  let inputs ← ((objGet j "inputs").bind asArr).bind decodeStrs
  let outputs ← ((objGet j "outputs").bind asArr).bind decodeStrs
  let is_explicit_in_paper ← (objGet j "is_explicit_in_paper").bind asBool
  pure ⟨step_number, step_name, description, category, tools_software,
        databases_apis, inputs, outputs, is_explicit_in_paper⟩

/-- Decode a JSON array of workflow steps. -/
def decodeSteps : List Json → Option (List WorkflowStep)
  | [] => some []
  | j :: js =>
      match WorkflowStep.fromJson j, decodeSteps js with
      | some s, some ss => some (s :: ss)
      | _, _ => none

/-- Decode a whole workflow description from its JSON object. -/
def WorkflowDescription.fromJson (j : Json) : Option WorkflowDescription := do
  let flag ← (objGet j "paper_has_untargeted_metabolomics").bind asBool
  let steps ← ((objGet j "workflow_steps").bind asArr).bind decodeSteps
  let omitted ← ((objGet j "unspecified_or_omitted_steps").bind asArr).bind decodeStrs
  let notes ← (objGet j "notes_on_ambiguity").bind asStr
  pure ⟨flag, steps, omitted, notes⟩

/-- Serialize a workflow the way the `workflow_json` column is built. -/
def dumpsWorkflow (w : WorkflowDescription) : String := dumps w.toJson

/-- Parse a `workflow_json` text back into a workflow description. -/
def loadsWorkflow (s : String) : Option WorkflowDescription :=
  (loads s).bind WorkflowDescription.fromJson

/-! ### Concrete fixtures used by witnesses and counterexamples -/

/-- A minimal workflow step with a given step number. -/
def sampleStep (n : Int) : WorkflowStep :=
  ⟨n, "step", "desc", "cat", [], [], [], [], true⟩

/-- A service reply whose step numbers are out of order. -/
def badStepsWorkflow : WorkflowDescription :=
  ⟨true, [sampleStep 2, sampleStep 1], [], "service reply"⟩

/-- A service reply whose step numbers ascend. -/
def goodStepsWorkflow : WorkflowDescription :=
  ⟨true, [sampleStep 1, sampleStep 2], [], "service reply"⟩

/-- A service that raises on every attempt. -/
def constFailService : GptService := fun _ _ => .error "boom"

/-- A service that replies with a fixed workflow on every attempt. -/
def constOkService (w : WorkflowDescription) : GptService := fun _ _ => .ok w

/-- A cloud run in which everything succeeds and the parsed reply has an
empty `full_text`. -/
def emptyTextEnv : CloudEnv :=
  ⟨.ok "file-1", .ok "asst-1", .ok "thread-1", .ok "completed", .ok "reply",
   fun _ => some (.obj [("title", .str "T"), ("full_text", .str "")])⟩

/-- A cloud run in which the very first remote call (upload) raises. -/
def uploadFailEnv : CloudEnv :=
  ⟨.error "connection reset", .ok "asst-1", .ok "thread-1", .ok "completed",
   .ok "reply", fun _ => none⟩

/-- A cloud run that reaches a terminal status other than `completed`. -/
def runFailedEnv : CloudEnv :=
  ⟨.ok "file-1", .ok "asst-1", .ok "thread-1", .ok "failed", .ok "reply",
   fun _ => none⟩

/-- Per-path cloud outcomes for a small batch: the middle file fails at
upload, the others succeed with empty full text. -/
def mixedEnvOf : String → CloudEnv :=
  fun p => if p = "b.pdf" then uploadFailEnv else emptyTextEnv

/-- The record `process_pdf_with_workflow` produces for each path under
`mixedEnvOf`. -/
def mixedRecordOf : String → FileRecord :=
  fun p =>
    if p = "b.pdf" then errorRecord p "connection reset"
    else setKey [("title", Json.str "T"), ("full_text", Json.str ""),
                 ("filename", Json.str p)] "workflow_json"
           (.str (dumps noFullTextSentinel.toJson))

/-- A classifier reply with arbitrary but fixed content. -/
def sampleAnalysis : AnalysisFields :=
  ⟨true, true, true, false, true, "plasma", true, true, true, true, false,
   true, true, true, 5, 3, 2, true, 4, "LC-MS"⟩

/-! ## Lemmas about the retry loop -/

/-- When every attempt raises, the loop runs through all its remaining
iterations, sleeping after each except the last, and ends in the failure
sentinel built from the final attempt's error. -/
theorem extractLoop_allFail (service : GptService) (prompt : String)
    (max_retries : Int) (d : ℚ) (errOf : Int → String)
    (hfail : ∀ a, service prompt a = .error (errOf a)) :
    ∀ (fuel : Nat) (attempt : Int) (calls : Nat) (slept : ℚ),
      1 ≤ fuel → attempt + (fuel : Int) - 1 = max_retries →
      extractLoop service prompt max_retries d fuel attempt calls slept =
        ⟨some (retryFailureSentinel max_retries (errOf max_retries)),
         calls + fuel, slept + ((fuel : ℚ) - 1) * d⟩ := by
  intro fuel
  induction fuel with
  | zero => intro attempt calls slept h; omega
  | succ n ih =>
      intro attempt calls slept _ hsum
      rw [extractLoop, hfail attempt]
      cases n with
      | zero =>
          have hat : attempt = max_retries := by push_cast at hsum; omega
          subst hat
          simp only [if_pos rfl]
          push_cast
          ring_nf
      | succ m =>
          have hne : ¬ attempt = max_retries := by push_cast at hsum; omega
          simp only [if_neg hne]
          rw [ih (attempt + 1) (calls + 1) (slept + d) (by omega)
                (by push_cast at hsum ⊢; omega)]
          congr 1
          · omega
          · push_cast
            ring

/-- With at least one iteration left and the final-iteration index
matching `max_retries`, the loop always produces a value (either the
parsed service reply or the failure sentinel). -/
theorem extractLoop_isSome (service : GptService) (prompt : String)
    (max_retries : Int) (d : ℚ) :
    ∀ (fuel : Nat) (attempt : Int) (calls : Nat) (slept : ℚ),
      1 ≤ fuel → attempt + (fuel : Int) - 1 = max_retries →
      (extractLoop service prompt max_retries d fuel attempt calls slept).result.isSome := by
  intro fuel
  induction fuel with
  | zero => intro attempt calls slept h; omega
  | succ n ih =>
      intro attempt calls slept _ hsum
      rw [extractLoop]
      cases hs : service prompt attempt with
      | ok parsed => rfl
      | error e =>
          cases n with
          | zero =>
              have hat : attempt = max_retries := by push_cast at hsum; omega
              simp [hat]
          | succ m =>
              have hne : ¬ attempt = max_retries := by push_cast at hsum; omega
              simp only [if_neg hne]
              exact ih (attempt + 1) (calls + 1) (slept + d) (by omega)
                (by push_cast at hsum ⊢; omega)

/-- Every value the loop produces is either a reply of the service or a
failure sentinel; the loop itself never builds anything else. -/
theorem extractLoop_result_origin (service : GptService) (prompt : String)
    (max_retries : Int) (d : ℚ) :
    ∀ (fuel : Nat) (attempt : Int) (calls : Nat) (slept : ℚ)
      (w : WorkflowDescription),
      (extractLoop service prompt max_retries d fuel attempt calls slept).result
        = some w →
      (∃ a, service prompt a = .ok w) ∨
      (∃ e, w = retryFailureSentinel max_retries e) := by
  intro fuel
  induction fuel with
  | zero =>
      intro attempt calls slept w h
      simp [extractLoop] at h
  | succ n ih =>
      intro attempt calls slept w h
      rw [extractLoop] at h
      cases hs : service prompt attempt with
      | ok parsed =>
          rw [hs] at h
          simp only [Option.some.injEq] at h
          exact Or.inl ⟨attempt, by rw [hs, h]⟩
      | error e =>
          rw [hs] at h
          by_cases hat : attempt = max_retries
          · simp only [if_pos hat, Option.some.injEq] at h
            exact Or.inr ⟨e, h.symm⟩
          · simp only [if_neg hat] at h
            exact ih (attempt + 1) (calls + 1) (slept + d) w h

/-! ## Claim C1 -/

/-- Claim C1: if every service call raises, then
`extract_workflow_from_full_text(full_text, max_retries, retry_delay)`
makes exactly `max_retries` service calls, sleeps `retry_delay` after
every attempt except the last (total sleep `(max_retries - 1) *
retry_delay`), and returns the sentinel `WorkflowDescription` — false
flag, empty step and omission lists, and `notes_on_ambiguity` naming the
attempt count (`max_retries`) and the last error (see
`retryFailureSentinel`). -/
theorem extractor_exhausts_all_retries_on_total_failure
    (service : GptService) (full_text : String) (max_retries : Int)
    (retry_delay : ℚ) (errOf : Int → String)
    (hpos : 1 ≤ max_retries)
    (hfail : ∀ a, service (mkUserPrompt full_text) a = .error (errOf a)) :
    extract_workflow_from_full_text service full_text max_retries retry_delay =
      ⟨some (retryFailureSentinel max_retries (errOf max_retries)),
       max_retries.toNat, ((max_retries : ℚ) - 1) * retry_delay⟩ := by
  obtain ⟨k, rfl⟩ : ∃ k : Nat, max_retries = (k : Int) :=
    ⟨max_retries.toNat, (Int.toNat_of_nonneg (by omega)).symm⟩
  unfold extract_workflow_from_full_text
  rw [Int.toNat_natCast,
      extractLoop_allFail service (mkUserPrompt full_text) (k : Int) retry_delay
        errOf hfail k 1 0 0 (by omega) (by ring)]
  congr 1
  · omega
  · push_cast
    ring

/-- Witness for Claim C1 at `max_retries = 3`, `retry_delay = 5`: three
calls, two sleeps totalling 10, and the sentinel naming 3 attempts and
the error `boom`. -/
theorem extractor_exhausts_all_retries_witness :
    extract_workflow_from_full_text constFailService "paper text" 3 5 =
      ⟨some (retryFailureSentinel 3 "boom"), 3, 10⟩ := by
  rw [extractor_exhausts_all_retries_on_total_failure constFailService
        "paper text" 3 5 (fun _ => "boom") (by norm_num) (fun a => rfl)]
  congr 1
  norm_num

/-! ## Claim C10 -/

/-- Claim C10: with `max_retries <= 0` the retry loop body never runs and
the function returns Python's `None` (zero calls, zero sleep); a
non-`None` result is guaranteed exactly when `max_retries >= 1`. -/
theorem extractor_returns_none_iff_no_attempts
    (service : GptService) (full_text : String) (max_retries : Int)
    (retry_delay : ℚ) :
    (max_retries ≤ 0 →
      extract_workflow_from_full_text service full_text max_retries retry_delay =
        ⟨none, 0, 0⟩) ∧
    (1 ≤ max_retries →
      (extract_workflow_from_full_text service full_text max_retries
          retry_delay).result.isSome) := by
  constructor
  · intro h
    unfold extract_workflow_from_full_text
    have hz : max_retries.toNat = 0 := by omega
    rw [hz]
    rfl
  · intro h
    unfold extract_workflow_from_full_text
    exact extractLoop_isSome service (mkUserPrompt full_text) max_retries
      retry_delay max_retries.toNat 1 0 0 (by omega)
      (by rw [Int.toNat_of_nonneg (by omega)]; ring)

/-- Witness for Claim C10: at `max_retries = 0` the extractor returns
`None` after zero calls, and at `max_retries = 2` it returns a value. -/
theorem extractor_returns_none_witness :
    extract_workflow_from_full_text constFailService "t" 0 5 = ⟨none, 0, 0⟩ ∧
    (extract_workflow_from_full_text constFailService "t" 2 5).result.isSome := by
  exact ⟨(extractor_returns_none_iff_no_attempts constFailService "t" 0 5).1
           (by norm_num),
         (extractor_returns_none_iff_no_attempts constFailService "t" 2 5).2
           (by norm_num)⟩

/-! ## Claim C7 -/

/-- Counterexample to Claim C7 as stated: the extractor forwards the
service reply verbatim, so a reply whose step numbers are `[2, 1]` is
returned unchanged — neither ascending nor the empty sentinel (it has
steps). -/
theorem stepnum_invariant_counterexample :
    (extract_workflow_from_full_text (constOkService badStepsWorkflow)
        "t" 3 5).result = some badStepsWorkflow ∧
    ¬ stepNumbersAscending badStepsWorkflow ∧
    badStepsWorkflow.workflow_steps ≠ [] := by
  exact ⟨rfl, by decide, by decide⟩

/-- Claim C7 (amended): provided every successful service reply has
unique, strictly increasing step numbers — the generating service is
trusted to comply, the extractor enforces nothing — every
`WorkflowDescription` the extractor returns has unique, strictly
increasing step numbers; in particular its own failure sentinel has no
steps at all. -/
theorem stepnum_invariant_amended (service : GptService) (full_text : String)
    (max_retries : Int) (retry_delay : ℚ)
    (hserv : ∀ p a w, service p a = .ok w → stepNumbersAscending w)
    (w : WorkflowDescription)
    (hres : (extract_workflow_from_full_text service full_text max_retries
        retry_delay).result = some w) :
    stepNumbersAscending w := by
  unfold extract_workflow_from_full_text at hres
  rcases extractLoop_result_origin service (mkUserPrompt full_text) max_retries
      retry_delay max_retries.toNat 1 0 0 w hres with ⟨a, ha⟩ | ⟨e, rfl⟩
  · exact hserv _ a w ha
  · simp [stepNumbersAscending, retryFailureSentinel]

/-- Witness for the amended Claim C7: a compliant service's reply indeed
comes back with ascending step numbers. -/
theorem stepnum_invariant_amended_witness :
    stepNumbersAscending goodStepsWorkflow :=
  stepnum_invariant_amended (constOkService goodStepsWorkflow) "t" 3 5
    (fun _ _ w h => by
      injection h with h2
      rw [← h2]
      decide)
    goodStepsWorkflow rfl

/-! ## Lemmas about the batch loops -/

/-- A list is non-empty in the boolean sense exactly when its length is
positive. -/
theorem not_isEmpty_iff_length_pos {α : Type} (l : List α) :
    ((!l.isEmpty) = true) ↔ 0 < l.length := by
  cases l <;> simp

/-- Splitting a list by a boolean predicate splits its length. -/
theorem length_filter_split {α : Type} (l : List α) (p : α → Bool) :
    (l.filter (fun a => !p a)).length + (l.filter p).length = l.length := by
  induction l with
  | nil => rfl
  | cons a t ih =>
      by_cases h : p a = true
      · simp [List.filter_cons, h]
        omega
      · simp only [Bool.not_eq_true] at h
        simp [List.filter_cons, h]
        omega

/-- When no file makes `process_pdf_with_workflow` crash, the driver's
loop appends every produced record to exactly one of the two lists,
splitting them by the presence of the `error` key. -/
theorem batchLoop_split (env : String → CloudEnv) (service : GptService)
    (recOf : String → FileRecord) :
    ∀ (ps : List String) (results failed : List FileRecord),
      (∀ p ∈ ps,
        (process_pdf_with_workflow (env p) service p).outcome = .ret (recOf p)) →
      batchLoop env service ps results failed =
        some (results ++ (ps.map recOf).filter (fun r => !hasError r),
              failed ++ (ps.map recOf).filter (fun r => hasError r)) := by
  intro ps
  induction ps with
  | nil => intro results failed _; simp [batchLoop]
  | cons p t ih =>
      intro results failed hret
      have hp := hret p (List.mem_cons_self p t)
      have ht : ∀ q ∈ t,
          (process_pdf_with_workflow (env q) service q).outcome = .ret (recOf q) :=
        fun q hq => hret q (List.mem_cons_of_mem p hq)
      rw [batchLoop, hp]
      by_cases he : hasError (recOf p) = true
      · simp only [he, Bool.not_true, Bool.false_eq_true, if_false]
        rw [ih results (failed ++ [recOf p]) ht]
        simp [List.filter_cons, he]
      · simp only [Bool.not_eq_true] at he
        simp only [he, Bool.not_false, if_true]
        rw [ih (results ++ [recOf p]) failed ht]
        simp [List.filter_cons, he]

/-- With the liveness flag down, the GROBID loop issues no extraction
call and files every path as the fixed `GROBID not available` error
record. -/
theorem grobidLoop_dead (grobidExtract : String → FileRecord) :
    ∀ (ps : List String) (results failed : List FileRecord) (calls : Nat),
      grobidLoop false grobidExtract ps results failed calls =
        (results,
         failed ++ ps.map (fun p => errorRecord p "GROBID not available"),
         calls) := by
  intro ps
  induction ps with
  | nil => intro results failed calls; simp [grobidLoop]
  | cons p t ih =>
      intro results failed calls
      rw [grobidLoop]
      have he : hasError (errorRecord p "GROBID not available") = true := rfl
      simp only [if_false, he, Bool.not_true, Bool.false_eq_true]
      rw [ih results (failed ++ [errorRecord p "GROBID not available"]) calls]
      simp

/-! ## Claim C2 -/

/-- Claim C2: over `N` enumerated files of which `K` produce a record
carrying the `error` key, the driver's success list has exactly `N - K`
entries and its failure list exactly `K`; the two lists are precisely
the error-free and error-carrying records in order (so each record lands
in exactly one list, decided solely by the `error` key); `<name>.csv`,
when written, has `N - K` rows; and `<name>_failed.csv` is written if
and only if `K > 0`. -/
theorem batch_driver_success_failure_split (env : String → CloudEnv)
    (service : GptService) (pdfPaths : List String) (maxPdfs : Nat)
    (recOf : String → FileRecord) (N K : Nat)
    (hret : ∀ p ∈ pdfPaths.take maxPdfs,
      (process_pdf_with_workflow (env p) service p).outcome = .ret (recOf p))
    (hN : N = (pdfPaths.take maxPdfs).length)
    (hK : K = (((pdfPaths.take maxPdfs).map recOf).filter
      (fun r => hasError r)).length) :
    ∃ out, batch_process_pdfs_with_workflows env service pdfPaths maxPdfs
        = some out ∧
      out.results = ((pdfPaths.take maxPdfs).map recOf).filter
        (fun r => !hasError r) ∧
      out.failed = ((pdfPaths.take maxPdfs).map recOf).filter
        (fun r => hasError r) ∧
      out.results.length = N - K ∧
      out.failed.length = K ∧
      (out.successCsvWritten = true → out.successCsvRows = N - K) ∧
      (out.failedCsvWritten = true ↔ 0 < K) := by
  subst hN
  subst hK
  have hsplit := batchLoop_split env service recOf (pdfPaths.take maxPdfs) [] [] hret
  have hlen := length_filter_split ((pdfPaths.take maxPdfs).map recOf)
    (fun r => hasError r)
  simp only [List.length_map] at hlen
  unfold batch_process_pdfs_with_workflows
  rw [hsplit]
  simp only [List.nil_append]
  refine ⟨_, rfl, rfl, rfl, ?_, ?_, ?_, ?_⟩
  · dsimp only
    omega
  · dsimp only
  · intro _
    dsimp only
    omega
  · dsimp only
    rw [not_isEmpty_iff_length_pos]

/-- Witness for Claim C2: three files, of which the middle one fails at
upload, give a success list of length 2 and a failure list of length 1,
and the failed CSV is written. -/
theorem batch_driver_split_witness :
    ∃ out, batch_process_pdfs_with_workflows mixedEnvOf constFailService
        ["a.pdf", "b.pdf", "c.pdf"] 5 = some out ∧
      out.results = (((["a.pdf", "b.pdf", "c.pdf"] : List String).take 5).map
        mixedRecordOf).filter (fun r => !hasError r) ∧
      out.failed = (((["a.pdf", "b.pdf", "c.pdf"] : List String).take 5).map
        mixedRecordOf).filter (fun r => hasError r) ∧
      out.results.length = 3 - 1 ∧
      out.failed.length = 1 ∧
      (out.successCsvWritten = true → out.successCsvRows = 3 - 1) ∧
      (out.failedCsvWritten = true ↔ 0 < 1) := by
  refine batch_driver_success_failure_split mixedEnvOf constFailService
    ["a.pdf", "b.pdf", "c.pdf"] 5 mixedRecordOf 3 1 ?_ rfl ?_
  · intro p hp
    simp only [List.take, List.mem_cons, List.not_mem_nil, or_false] at hp
    rcases hp with rfl | rfl | rfl
    · rfl
    · rfl
    · rfl
  · rfl

/-! ## Claim C3 -/

/-- Claim C3: when the adapter returned an error-free record whose
`full_text` is the empty string, `process_pdf_with_workflow` attaches the
serialized no-full-text sentinel (`paper_has_untargeted_metabolomics =
false`, empty steps and omissions, a note that no full text was
extracted) under `workflow_json` while making zero calls to the
text-generation service (and sleeping zero time). -/
theorem empty_fulltext_short_circuits_extractor (env : CloudEnv)
    (service : GptService) (pdfName : String) (record : FileRecord)
    (hrec : (extract_pdf_content env pdfName).1 = record)
    (hnoerr : hasError record = false)
    (hempty : (lookupKey record "full_text").getD (.str "") = .str "") :
    process_pdf_with_workflow env service pdfName =
      ⟨.ret (setKey record "workflow_json"
          (.str (dumps noFullTextSentinel.toJson))), 0, 0⟩ := by
  unfold process_pdf_with_workflow
  rw [hrec]
  simp only [hnoerr, hempty, Bool.false_eq_true, if_false]
  rfl

/-- Witness for Claim C3: a successful cloud run whose parsed reply has
`full_text = ""` short-circuits to the sentinel with zero extractor
calls, even under a service that would fail every call. -/
theorem empty_fulltext_short_circuits_witness :
    process_pdf_with_workflow emptyTextEnv constFailService "p.pdf" =
      ⟨.ret (setKey [("title", Json.str "T"), ("full_text", Json.str ""),
          ("filename", Json.str "p.pdf")] "workflow_json"
          (.str (dumps noFullTextSentinel.toJson))), 0, 0⟩ :=
  empty_fulltext_short_circuits_extractor emptyTextEnv constFailService
    "p.pdf" _ rfl rfl rfl

/-! ## Claim C4 -/

/-- Claim C4 names intended behavior (the spec flags the leak as
unintended): the code skips both cleanup calls whenever the `try` block
raises. Evaluated at the concrete failing input `runFailedEnv` — a run
that ends in a terminal status other than `completed` and so raises —
the uploaded file and the ephemeral assistant both exist and neither is
deleted before the error record is returned. -/
theorem cloud_cleanup_skipped_on_failed_run :
    (extract_pdf_content runFailedEnv "p.pdf").2 =
      ⟨true, false, true, false⟩ ∧
    (extract_pdf_content runFailedEnv "p.pdf").1 =
      errorRecord "p.pdf" "Run failed with status: failed" ∧
    (extract_pdf_content emptyTextEnv "p.pdf").2 =
      ⟨true, true, true, true⟩ :=
  ⟨rfl, rfl, rfl⟩

/-! ## Claim C5 -/

/-- Claim C5: in the GROBID variant's batch run, if the preflight probe
returns a status other than 200 or raises, every file's record is the
`GROBID not available` error record, the success list is empty, and no
extraction call is ever issued. -/
theorem grobid_preflight_failure_skips_extraction (probe : Except String Int)
    (grobidExtract : String → FileRecord) (pdfPaths : List String)
    (hprobe : probe ≠ .ok 200) :
    (grobid_main true probe grobidExtract pdfPaths).extractCalls = 0 ∧
    (grobid_main true probe grobidExtract pdfPaths).results = [] ∧
    (grobid_main true probe grobidExtract pdfPaths).failed =
      pdfPaths.map (fun p => errorRecord p "GROBID not available") := by
  unfold grobid_main
  rcases probe with e | status
  · dsimp only
    rw [show (if (true = true) then false else false) = false from rfl,
        grobidLoop_dead grobidExtract pdfPaths [] [] 0]
    exact ⟨rfl, rfl, rfl⟩
  · have hne : (status == 200) = false := by
      refine beq_eq_false_iff_ne.mpr ?_
      intro h
      exact hprobe (by rw [h])
    dsimp only
    rw [show (if (true = true) then (status == 200) else false) = (status == 200)
          from rfl,
        hne, grobidLoop_dead grobidExtract pdfPaths [] [] 0]
    exact ⟨rfl, rfl, rfl⟩

/-- Witness for Claim C5: a probe that raises makes a two-file batch
produce two `GROBID not available` error records and zero extraction
calls. -/
theorem grobid_preflight_failure_witness :
    (grobid_main true (.error "connection refused")
        (fun p => [("filename", Json.str p)]) ["a.pdf", "b.pdf"]).extractCalls
      = 0 ∧
    (grobid_main true (.error "connection refused")
        (fun p => [("filename", Json.str p)]) ["a.pdf", "b.pdf"]).results = [] ∧
    (grobid_main true (.error "connection refused")
        (fun p => [("filename", Json.str p)]) ["a.pdf", "b.pdf"]).failed =
      (["a.pdf", "b.pdf"] : List String).map
        (fun p => errorRecord p "GROBID not available") :=
  grobid_preflight_failure_skips_extraction (.error "connection refused")
    (fun p => [("filename", Json.str p)]) ["a.pdf", "b.pdf"]
    (fun h => by injection h)

/-! ## Claim C6 -/

/-- Claim C6: the classifier makes exactly one service call (so at most
one, with no retry) on every input, and whenever that call raises it
returns the all-sentinel `WorkflowAnalysis` — every boolean false, every
numeric zero, both free-text analysis fields the literal `"error"` — with
the exception message under the extra `error` key alongside the
filename (see `errorAnalysis`). -/
theorem classifier_single_call_error_sentinel (service : AnalysisService)
    (workflow_data : Json) (filename : String) :
    (analyze_workflow_with_gpt service workflow_data filename).2 = 1 ∧
    (∀ e, service (analysis_prompt ++ "\n\nWorkflow to analyze:\n"
        ++ dumps workflow_data) = .error e →
      (analyze_workflow_with_gpt service workflow_data filename).1 =
        errorAnalysis filename e) := by
  constructor
  · unfold analyze_workflow_with_gpt
    cases hs : service (analysis_prompt ++ "\n\nWorkflow to analyze:\n"
        ++ dumps workflow_data) with
    | ok f => simp [hs]
    | error e => simp [hs]
  · intro e he
    unfold analyze_workflow_with_gpt
    simp [he]

/-- Witness for Claim C6: a raising classifier service yields the
all-sentinel analysis carrying the message, after exactly one call. -/
theorem classifier_error_sentinel_witness :
    (analyze_workflow_with_gpt (fun _ => .error "boom") (Json.obj [])
        "f.pdf").2 = 1 ∧
    (analyze_workflow_with_gpt (fun _ => .error "boom") (Json.obj [])
        "f.pdf").1 = errorAnalysis "f.pdf" "boom" :=
  ⟨(classifier_single_call_error_sentinel (fun _ => .error "boom")
      (Json.obj []) "f.pdf").1,
   (classifier_single_call_error_sentinel (fun _ => .error "boom")
      (Json.obj []) "f.pdf").2 "boom" rfl⟩

/-! ## Claim C9 -/

/-- Counterexample to Claim C9 as stated: the layout-parser variant's
standalone entry point does not use the flat pattern `*.pdf` — like the
other two entry points it globs `*/*.pdf`, so on a tree holding a
top-level `a.pdf` and a nested `d/b.pdf` it enumerates only the nested
file. -/
theorem glob_pattern_claim_counterexample :
    ¬ (papermageMainGlob = "*.pdf" ∧ gptBatchGlob = "*/*.pdf" ∧
        grobidMainGlob = "*/*.pdf") ∧
    globEnumerate papermageMainGlob [["a.pdf"], ["d", "b.pdf"]] =
      [["d", "b.pdf"]] := by
  constructor
  · intro h
    exact absurd h.1 (by decide)
  · decide

/-- Claim C9 (amended): all three entry points — the layout-parser
variant's `main` included — enumerate inputs with the one-level-nested
pattern `*/*.pdf`; none uses the flat `*.pdf`. -/
theorem glob_patterns_all_nested :
    papermageMainGlob = "*/*.pdf" ∧ gptBatchGlob = "*/*.pdf" ∧
    grobidMainGlob = "*/*.pdf" ∧ papermageMainGlob ≠ "*.pdf" ∧
    globEnumerate papermageMainGlob
        [["a.pdf"], ["d", "b.pdf"], ["x", "y", "c.pdf"], ["d", "notes.txt"]]
      = [["d", "b.pdf"]] := by
  refine ⟨rfl, rfl, rfl, by decide, by decide⟩

/-! ## Codec lemmas: digits -/

/-- The character `decChar n` carries the digit `n % 10`. -/
theorem decChar_toNat (n : Nat) : (decChar n).toNat = 48 + n % 10 := by
  unfold decChar
  have h : n % 10 < 10 := Nat.mod_lt _ (by omega)
  generalize n % 10 = k at *
  interval_cases k <;> decide

/-- `decChar` always yields a digit character. -/
theorem isDigitChar_decChar (n : Nat) : isDigitChar (decChar n) = true := by
  have h : n % 10 < 10 := Nat.mod_lt _ (by omega)
  simp only [isDigitChar, decChar_toNat, Bool.and_eq_true, decide_eq_true_eq]
  omega

/-- A rendered natural number is never empty. -/
theorem natChars_ne_nil (n : Nat) : natChars n ≠ [] := by
  rw [natChars]
  split <;> simp

/-- Every character of a rendered natural number is a digit. -/
theorem natChars_digits (n : Nat) : ∀ c ∈ natChars n, isDigitChar c = true := by
  induction n using Nat.strongRecOn with
  | _ n ih =>
      rw [natChars]
      split
      · intro c hc
        rw [List.mem_singleton] at hc
        subst hc
        exact isDigitChar_decChar n
      · rename_i hge
        intro c hc
        rw [List.mem_append] at hc
        rcases hc with hc | hc
        · exact ih (n / 10) (Nat.div_lt_self (by omega) (by omega)) c hc
        · rw [List.mem_singleton] at hc
          subst hc
          exact isDigitChar_decChar n

/-- A rendered natural number starts with a digit. -/
theorem natChars_cons (n : Nat) :
    ∃ c t, natChars n = c :: t ∧ isDigitChar c = true := by
  match h : natChars n with
  | [] => exact absurd h (natChars_ne_nil n)
  | c :: t =>
      exact ⟨c, t, rfl, natChars_digits n c (h ▸ List.mem_cons_self c t)⟩

/-- Folding the digit characters of `n` back up recovers `n`. -/
theorem digitsVal_natChars (n : Nat) : digitsVal (natChars n) = n := by
  induction n using Nat.strongRecOn with
  | _ n ih =>
      rw [natChars]
      split
      · rename_i hlt
        simp only [digitsVal, List.foldl_cons, List.foldl_nil, decChar_toNat]
        omega
      · rename_i hge
        have ihd := ih (n / 10) (Nat.div_lt_self (by omega) (by omega))
        simp only [digitsVal, List.foldl_append, List.foldl_cons, List.foldl_nil,
          decChar_toNat] at ihd ⊢
        rw [ihd]
        omega

/-- `grabDigits` stops immediately on a non-digit start. -/
theorem grabDigits_stop (cs : List Char) (h : notDigitStart cs = true) :
    grabDigits cs = ([], cs) := by
  cases cs with
  | nil => rfl
  | cons c t =>
      simp only [notDigitStart, Bool.not_eq_true'] at h
      simp [grabDigits, h]

/-- `grabDigits` consumes exactly a digit run, stopping at the remainder. -/
theorem grabDigits_split (ds : List Char) (hds : ∀ c ∈ ds, isDigitChar c = true)
    (rest : List Char) (hrest : notDigitStart rest = true) :
    grabDigits (ds ++ rest) = (ds, rest) := by
  induction ds with
  | nil => simpa using grabDigits_stop rest hrest
  | cons c t ih =>
      have hc : isDigitChar c = true := hds c (List.mem_cons_self c t)
      have ht := ih (fun x hx => hds x (List.mem_cons_of_mem c hx))
      simp [grabDigits, hc, ht]

/-- A digit character is not the minus sign. -/
theorem digit_ne_minus {c : Char} (h : isDigitChar c = true) : c ≠ '-' := by
  intro hc
  subst hc
  exact absurd h (by decide)

/-- The integer codec round-trip: parsing a rendered integer recovers it
whenever the remainder cannot extend the digit run. -/
theorem parseIntVal_intChars (i : Int) (rest : List Char)
    (hrest : notDigitStart rest = true) :
    parseIntVal (intChars i ++ rest) = some (.int i, rest) := by
  have hg := grabDigits_split (natChars i.natAbs) (natChars_digits _) rest hrest
  by_cases hneg : i < 0
  · rw [intChars, if_pos hneg, List.cons_append]
    unfold parseIntVal
    split
    · rename_i r heq
      injection heq with hh ht
      subst ht
      rw [hg]
      dsimp only
      rw [if_neg (by simp [natChars_ne_nil])]
      rw [digitsVal_natChars]
      simp only [Option.some.injEq, Prod.mk.injEq, Json.int.injEq]
      exact ⟨by omega, trivial⟩
    · rename_i hno
      exact absurd rfl (hno (natChars i.natAbs ++ rest))
  · obtain ⟨c, t, hct, hc⟩ := natChars_cons i.natAbs
    have hcm := digit_ne_minus hc
    rw [intChars, if_neg hneg, hct, List.cons_append]
    unfold parseIntVal
    split
    · rename_i r heq
      injection heq with h1 h2
      exact absurd h1 hcm
    · rw [← List.cons_append, ← hct, hg]
      dsimp only
      rw [if_neg (by simp [natChars_ne_nil])]
      rw [digitsVal_natChars]
      simp only [Option.some.injEq, Prod.mk.injEq, Json.int.injEq]
      exact ⟨by omega, trivial⟩

/-! ## Codec lemmas: strings -/

/-- `hexChar` digits decode to their value. -/
theorem hexDigitVal_hexChar (k : Nat) (h : k < 16) :
    hexDigitVal (hexChar k) = some k := by
  interval_cases k <;> decide

/-- Parsing one escaped character undoes the escaping. -/
theorem parseStringBody_escChar (c : Char) (acc rest : List Char) :
    parseStringBody acc (escChar c ++ rest) = parseStringBody (acc ++ [c]) rest := by
  unfold escChar
  by_cases h1 : c = '"'
  · subst h1; rfl
  rw [if_neg h1]
  by_cases h2 : c = '\\'
  · subst h2; rfl
  rw [if_neg h2]
  by_cases h3 : c = '\n'
  · subst h3; rfl
  rw [if_neg h3]
  by_cases h4 : c = '\r'
  · subst h4; rfl
  rw [if_neg h4]
  by_cases h5 : c = '\t'
  · subst h5; rfl
  rw [if_neg h5]
  by_cases h6 : c = Char.ofNat 8
  · subst h6; rfl
  rw [if_neg h6]
  by_cases h7 : c = Char.ofNat 12
  · subst h7; rfl
  rw [if_neg h7]
  by_cases h8 : c.toNat < 32
  · rw [if_pos h8]
    have h16 : c.toNat % 16 < 16 := Nat.mod_lt _ (by omega)
    have hq : hexQuad '0' '0' (hexChar (c.toNat / 16)) (hexChar (c.toNat % 16))
        = some c.toNat := by
      unfold hexQuad
      rw [hexDigitVal_hexChar _ (by omega), hexDigitVal_hexChar _ h16]
      show some ((((0 * 16 + 0) * 16 + c.toNat / 16) * 16 + c.toNat % 16)) = _
      congr 1
      omega
    simp only [List.cons_append, List.nil_append]
    have hstep : parseStringBody acc
        ('\\' :: 'u' :: '0' :: '0' :: hexChar (c.toNat / 16)
          :: hexChar (c.toNat % 16) :: rest) =
        (match hexQuad '0' '0' (hexChar (c.toNat / 16)) (hexChar (c.toNat % 16)) with
         | some n => parseStringBody (acc ++ [Char.ofNat n]) rest
         | none => none) := rfl
    rw [hstep, hq]
    dsimp only
    rw [Char.ofNat_toNat]
  · rw [if_neg h8]
    simp only [List.cons_append, List.nil_append]
    rw [parseStringBody.eq_def]
    split
    · rename_i heq
      injection heq with hh ht
      exact absurd hh h1
    · rename_i a b d e heq
      injection heq with hh ht
      exact absurd hh h2
    · rename_i e r heq
      injection heq with hh ht
      exact absurd hh h2
    · rename_i c2 r heq
      injection heq with hh ht
      subst hh
      subst ht
      rfl
    · rename_i heq
      cases heq

/-- Rebuilding a string from its own characters is the identity. -/
theorem mk_toList (s : String) : (⟨s.toList⟩ : String) = s := by
  cases s
  rfl

/-- Parsing an escaped character run consumes it whole and stops at the
closing quote. -/
theorem parseStringBody_escRun (cs : List Char) :
    ∀ (acc rest : List Char),
      parseStringBody acc
          ((cs.foldr (fun c r => escChar c ++ r) []) ++ '"' :: rest) =
        some (⟨acc ++ cs⟩, rest) := by
  induction cs with
  | nil =>
      intro acc rest
      simp [parseStringBody]
  | cons c cs ih =>
      intro acc rest
      rw [List.foldr_cons, List.append_assoc, parseStringBody_escChar, ih]
      simp

/-- The string codec round-trip: parsing a rendered string body recovers
the string and the remainder. -/
theorem parseStringBody_escString (s : String) (rest : List Char) :
    parseStringBody [] (escString s ++ '"' :: rest) = some (s, rest) := by
  unfold escString
  rw [parseStringBody_escRun]
  rw [List.nil_append, mk_toList]

/-! ## Codec lemmas: heads of rendered output -/

/-- A digit character is none of the structural delimiters the parser
dispatches on. -/
theorem digit_not_special {c : Char} (h : isDigitChar c = true) :
    isWsChar c = false ∧ c ≠ ']' ∧ c ≠ 't' ∧ c ≠ 'f' ∧ c ≠ '"' ∧ c ≠ '[' ∧
    c ≠ lbrace := by
  simp only [isDigitChar, Bool.and_eq_true, decide_eq_true_eq] at h
  refine ⟨?_, ?_, ?_, ?_, ?_, ?_, ?_⟩
  · simp only [isWsChar, Bool.or_eq_false_iff, beq_eq_false_iff_ne]
    refine ⟨⟨⟨?_, ?_⟩, ?_⟩, ?_⟩ <;> (intro hc; subst hc; revert h; decide)
  all_goals (intro hc; subst hc; revert h; decide)

/-- Every rendered value starts with a character that is neither
whitespace nor a closing bracket. -/
theorem dumpVal_head (v : Json) :
    ∃ c t, dumpVal v = c :: t ∧ isWsChar c = false ∧ c ≠ ']' := by
  cases v with
  | str s => exact ⟨'"', _, rfl, by decide, by decide⟩
  | bool b =>
      cases b with
      | true => exact ⟨'t', _, rfl, by decide, by decide⟩
      | false => exact ⟨'f', _, rfl, by decide, by decide⟩
  | arr items => exact ⟨'[', _, rfl, by decide, by decide⟩
  | obj pairs => exact ⟨lbrace, _, rfl, by decide, by decide⟩
  | int n =>
      by_cases hneg : n < 0
      · refine ⟨'-', natChars n.natAbs, ?_, by decide, by decide⟩
        simp [dumpVal, intChars, hneg]
      · obtain ⟨c, t, hct, hc⟩ := natChars_cons n.natAbs
        obtain ⟨hws, hbr, _⟩ := digit_not_special hc
        refine ⟨c, t, ?_, hws, hbr⟩
        simp [dumpVal, intChars, hneg, hct]

/-- `dropWs` does nothing when the input starts with a non-whitespace
character. -/
theorem dropWs_cons {c : Char} {cs : List Char} (h : isWsChar c = false) :
    dropWs (c :: cs) = c :: cs := by
  simp [dropWs, h]

/-- `dropWs` does nothing ahead of a rendered value. -/
theorem dropWs_dumpVal (v : Json) (x : List Char) :
    dropWs (dumpVal v ++ x) = dumpVal v ++ x := by
  obtain ⟨c, t, hct, hws, _⟩ := dumpVal_head v
  rw [hct, List.cons_append, dropWs_cons hws]

/-- `dropWs` does nothing ahead of a rendered item list. -/
theorem dropWs_dumpItems (v : Json) (vs : List Json) (x : List Char) :
    dropWs (dumpItems (v :: vs) ++ x) = dumpItems (v :: vs) ++ x := by
  cases vs with
  | nil => exact dropWs_dumpVal v x
  | cons v2 vs2 =>
      rw [dumpItems, List.append_assoc]
      exact dropWs_dumpVal v _

/-- `dropWs` does nothing ahead of a rendered member list (it starts with
the key's opening quote). -/
theorem dropWs_dumpPairs (kv : String × Json) (ps : List (String × Json))
    (x : List Char) :
    dropWs (dumpPairs (kv :: ps) ++ x) = dumpPairs (kv :: ps) ++ x := by
  rcases kv with ⟨k, v⟩
  cases ps with
  | nil =>
      rw [dumpPairs, List.cons_append, dropWs_cons (by decide)]
  | cons p2 ps2 =>
      rw [dumpPairs, List.cons_append, dropWs_cons (by decide)]

/-- One `dropWs` step over a space. -/
theorem dropWs_space (cs : List Char) : dropWs (' ' :: cs) = dropWs cs := by
  simp [dropWs, isWsChar]

/-- A rendered item list starts like its first rendered value. -/
theorem dumpItems_head (v : Json) (vs : List Json) :
    ∃ c t, dumpItems (v :: vs) = c :: t ∧ isWsChar c = false ∧ c ≠ ']' := by
  obtain ⟨c, t, hct, hws, hne⟩ := dumpVal_head v
  cases vs with
  | nil => exact ⟨c, t, by rw [dumpItems, hct], hws, hne⟩
  | cons v2 vs2 =>
      exact ⟨c, t ++ ',' :: ' ' :: dumpItems (v2 :: vs2),
        by rw [dumpItems, hct, List.cons_append], hws, hne⟩

/-- A rendered member list starts with the first key's opening quote. -/
theorem dumpPairs_head (kv : String × Json) (ps : List (String × Json)) :
    ∃ t, dumpPairs (kv :: ps) = '"' :: t := by
  rcases kv with ⟨k, v⟩
  cases ps with
  | nil => exact ⟨_, rfl⟩
  | cons p2 ps2 => exact ⟨_, rfl⟩

/-! ## Codec lemmas: one-step views of the parser -/

/-- Unfolding `parseVal` at a string opener. -/
theorem parseVal_str_step (fuel : Nat) (r : List Char) :
    parseVal (fuel + 1) ('"' :: r) =
      (match parseStringBody [] r with
       | some (s, r2) => some (.str s, r2)
       | none => none) := by
  rw [parseVal, dropWs_cons (by decide)]
  rfl

/-- Unfolding `parseVal` at an array opener. -/
theorem parseVal_arr_step (fuel : Nat) (r : List Char) :
    parseVal (fuel + 1) ('[' :: r) =
      (match dropWs r with
       | ']' :: r2 => some (.arr [], r2)
       | r2 =>
           match parseItems fuel r2 with
           | some (vs, r3) => some (.arr vs, r3)
           | none => none) := by
  rw [parseVal, dropWs_cons (by decide)]
  rfl

/-- Unfolding `parseVal` at an object opener. -/
theorem parseVal_obj_step (fuel : Nat) (r : List Char) :
    parseVal (fuel + 1) (lbrace :: r) =
      (match dropWs r with
       | c2 :: r2 =>
           if c2 = rbrace then some (.obj [], r2)
           else
             match parsePairs fuel (c2 :: r2) with
             | some (ps, r3) => some (.obj ps, r3)
             | none => none
       | [] => none) := by
  rw [parseVal, dropWs_cons (by decide)]
  rfl

/-- `parseVal` hands an integer-looking head straight to `parseIntVal`. -/
theorem parseVal_int_dispatch (fuel : Nat) (c : Char) (t : List Char)
    (hws : isWsChar c = false) (hct : c ≠ 't') (hcf : c ≠ 'f') (hcq : c ≠ '"')
    (hbk : c ≠ '[') (hbc : c ≠ lbrace)
    (hg : (decide (c = '-') || isDigitChar c) = true) :
    parseVal (fuel + 1) (c :: t) = parseIntVal (c :: t) := by
  rw [parseVal, dropWs_cons hws]
  split
  · rename_i heq
    injection heq with hh _
    exact absurd hh hct
  · rename_i heq
    injection heq with hh _
    exact absurd hh hcf
  · rename_i heq
    injection heq with hh _
    exact absurd hh hcq
  · rename_i heq
    injection heq with hh _
    exact absurd hh hbk
  · rename_i c2 r heq
    injection heq with hh ht2
    subst hh
    subst ht2
    rw [if_neg hbc, if_pos hg]
  · rename_i heq
    cases heq

/-- Unfolding `parseItems` at successor fuel. -/
theorem parseItems_step (fuel : Nat) (cs : List Char) :
    parseItems (fuel + 1) cs =
      (match parseVal fuel cs with
       | none => none
       | some (v, r) =>
           match dropWs r with
           | ',' :: r2 =>
               match parseItems fuel (dropWs r2) with
               | some (vs, r3) => some (v :: vs, r3)
               | none => none
           | ']' :: r2 => some ([v], r2)
           | _ => none) := by
  rw [parseItems]

/-- Unfolding `parsePairs` at successor fuel. -/
theorem parsePairs_step (fuel : Nat) (cs : List Char) :
    parsePairs (fuel + 1) cs =
      (match dropWs cs with
       | '"' :: r =>
           match parseStringBody [] r with
           | none => none
           | some (k, r1) =>
               match dropWs r1 with
               | ':' :: r2 =>
                   match parseVal fuel (dropWs r2) with
                   | none => none
                   | some (v, r3) =>
                       match dropWs r3 with
                       | ',' :: r4 =>
                           match parsePairs fuel (dropWs r4) with
                           | some (ps, r5) => some ((k, v) :: ps, r5)
                           | none => none
                       | c :: r4 => if c = rbrace then some ([(k, v)], r4) else none
                       | [] => none
               | _ => none
       | _ => none) := by
  rw [parsePairs]

/-- `parseItems` after a value followed by a comma conses the rest. -/
theorem parseItems_after_comma (fuel : Nat) (cs r2 : List Char) (v : Json)
    (vs : List Json) (r3 : List Char)
    (h1 : parseVal fuel cs = some (v, ',' :: r2))
    (h2 : parseItems fuel (dropWs r2) = some (vs, r3)) :
    parseItems (fuel + 1) cs = some (v :: vs, r3) := by
  rw [parseItems_step, h1]
  dsimp only
  rw [dropWs_cons (by decide)]
  show (match parseItems fuel (dropWs r2) with
        | some (vs2, r3b) => some (v :: vs2, r3b)
        | none => none) = some (v :: vs, r3)
  rw [h2]

/-- `parsePairs` on one final `"key": value` member closed by a brace. -/
theorem parsePairs_after_last (fuel : Nat) (r r1 r2 rest3 r4 : List Char)
    (k : String) (v : Json)
    (hk : parseStringBody [] r = some (k, r1))
    (hc : dropWs r1 = ':' :: r2)
    (hv : parseVal fuel (dropWs r2) = some (v, rest3))
    (hr : dropWs rest3 = rbrace :: r4) :
    parsePairs (fuel + 1) ('"' :: r) = some ([(k, v)], r4) := by
  rw [parsePairs_step, dropWs_cons (by decide)]
  show (match parseStringBody [] r with
        | none => none
        | some (k2, r1b) =>
            match dropWs r1b with
            | ':' :: r2b =>
                match parseVal fuel (dropWs r2b) with
                | none => none
                | some (v2, r3b) =>
                    match dropWs r3b with
                    | ',' :: r4b =>
                        match parsePairs fuel (dropWs r4b) with
                        | some (ps, r5) => some ((k2, v2) :: ps, r5)
                        | none => none
                    | c :: r4b => if c = rbrace then some ([(k2, v2)], r4b) else none
                    | [] => none
            | _ => none) = some ([(k, v)], r4)
  rw [hk]
  dsimp only
  rw [hc]
  show (match parseVal fuel (dropWs r2) with
        | none => none
        | some (v2, r3b) =>
            match dropWs r3b with
            | ',' :: r4b =>
                match parsePairs fuel (dropWs r4b) with
                | some (ps, r5) => some ((k, v2) :: ps, r5)
                | none => none
            | c :: r4b => if c = rbrace then some ([(k, v2)], r4b) else none
            | [] => none) = some ([(k, v)], r4)
  rw [hv]
  dsimp only
  rw [hr]
  rfl

/-- `parsePairs` on a `"key": value` member followed by a comma conses
the rest. -/
theorem parsePairs_after_comma (fuel : Nat) (r r1 r2 rest3 r4 : List Char)
    (k : String) (v : Json) (ps : List (String × Json)) (r5 : List Char)
    (hk : parseStringBody [] r = some (k, r1))
    (hc : dropWs r1 = ':' :: r2)
    (hv : parseVal fuel (dropWs r2) = some (v, rest3))
    (hr : dropWs rest3 = ',' :: r4)
    (hp : parsePairs fuel (dropWs r4) = some (ps, r5)) :
    parsePairs (fuel + 1) ('"' :: r) = some ((k, v) :: ps, r5) := by
  rw [parsePairs_step, dropWs_cons (by decide)]
  show (match parseStringBody [] r with
        | none => none
        | some (k2, r1b) =>
            match dropWs r1b with
            | ':' :: r2b =>
                match parseVal fuel (dropWs r2b) with
                | none => none
                | some (v2, r3b) =>
                    match dropWs r3b with
                    | ',' :: r4b =>
                        match parsePairs fuel (dropWs r4b) with
                        | some (ps2, r5b) => some ((k2, v2) :: ps2, r5b)
                        | none => none
                    | c :: r4b => if c = rbrace then some ([(k2, v2)], r4b) else none
                    | [] => none
            | _ => none) = some ((k, v) :: ps, r5)
  rw [hk]
  dsimp only
  rw [hc]
  show (match parseVal fuel (dropWs r2) with
        | none => none
        | some (v2, r3b) =>
            match dropWs r3b with
            | ',' :: r4b =>
                match parsePairs fuel (dropWs r4b) with
                | some (ps2, r5b) => some ((k, v2) :: ps2, r5b)
                | none => none
            | c :: r4b => if c = rbrace then some ([(k, v2)], r4b) else none
            | [] => none) = some ((k, v) :: ps, r5)
  rw [hv]
  dsimp only
  rw [hr]
  show (match parsePairs fuel (dropWs r4) with
        | some (ps2, r5b) => some ((k, v) :: ps2, r5b)
        | none => none) = some ((k, v) :: ps, r5)
  rw [hp]

/-! ## The codec round-trip, by mutual induction over the value -/

mutual
/-- Parsing a rendered value recovers it, for any fuel beyond the
rendered length and any remainder that cannot extend a digit run. -/
theorem rtVal : ∀ (v : Json) (fuel : Nat) (rest : List Char),
    (dumpVal v).length < fuel → notDigitStart rest = true →
    parseVal fuel (dumpVal v ++ rest) = some (v, rest)
  | _, 0, _, hf, _ => absurd hf (Nat.not_lt_zero _)
  | .str s, fuel + 1, rest, _, _ => by
      have harg : dumpVal (.str s) ++ rest = '"' :: (escString s ++ '"' :: rest) := by
        rw [dumpVal]
        simp [List.cons_append, List.append_assoc]
      rw [harg, parseVal_str_step, parseStringBody_escString]
  | .int n, fuel + 1, rest, _, hr => by
      by_cases hneg : n < 0
      · have harg : dumpVal (.int n) ++ rest = '-' :: (natChars n.natAbs ++ rest) := by
          rw [dumpVal, intChars, if_pos hneg, List.cons_append]
        rw [harg, parseVal_int_dispatch fuel '-' _ (by decide) (by decide)
              (by decide) (by decide) (by decide) (by decide) (by decide)]
        rw [← List.cons_append,
            show ('-' :: natChars n.natAbs) = intChars n from
              by rw [intChars, if_pos hneg]]
        exact parseIntVal_intChars n rest hr
      · obtain ⟨c, t, hct, hc⟩ := natChars_cons n.natAbs
        obtain ⟨hws, _, hT, hF, hQ, hBK, hBC⟩ := digit_not_special hc
        have harg : dumpVal (.int n) ++ rest = c :: (t ++ rest) := by
          rw [dumpVal, intChars, if_neg hneg, hct, List.cons_append]
        rw [harg, parseVal_int_dispatch fuel c _ hws hT hF hQ hBK hBC
              (by simp [hc])]
        rw [← List.cons_append, ← hct,
            show natChars n.natAbs = intChars n from
              by rw [intChars, if_neg hneg]]
        exact parseIntVal_intChars n rest hr
  | .bool true, fuel + 1, rest, _, _ => rfl
  | .bool false, fuel + 1, rest, _, _ => rfl
  | .arr [], fuel + 1, rest, _, _ => by
      have harg : dumpVal (.arr []) ++ rest = '[' :: (']' :: rest) := rfl
      rw [harg, parseVal_arr_step]
      rfl
  | .arr (e :: es), fuel + 1, rest, hf, _ => by
      have hfe : (dumpItems (e :: es)).length + 1 < fuel := by
        rw [dumpVal] at hf
        simp only [List.length_cons, List.length_append] at hf
        omega
      have key := rtItems e es fuel rest hfe
      have harg : dumpVal (.arr (e :: es)) ++ rest =
          '[' :: (dumpItems (e :: es) ++ ']' :: rest) := by
        rw [dumpVal]
        simp [List.cons_append, List.append_assoc]
      obtain ⟨c, t2, hct, hws, hne⟩ := dumpItems_head e es
      rw [harg, parseVal_arr_step, dropWs_dumpItems e es (']' :: rest), hct,
          List.cons_append]
      split
      · rename_i r2 heq
        injection heq with hh _
        exact absurd hh hne
      · rw [← List.cons_append, ← hct, key]
  | .obj [], fuel + 1, rest, _, _ => by
      have harg : dumpVal (.obj []) ++ rest = lbrace :: (rbrace :: rest) := rfl
      rw [harg, parseVal_obj_step, dropWs_cons (by decide)]
      rfl
  | .obj (kv :: ps), fuel + 1, rest, hf, _ => by
      have hfp : (dumpPairs (kv :: ps)).length + 1 < fuel := by
        rw [dumpVal] at hf
        simp only [List.length_cons, List.length_append] at hf
        omega
      have key := rtPairs kv ps fuel rest hfp
      obtain ⟨t2, hct⟩ := dumpPairs_head kv ps
      have harg : dumpVal (.obj (kv :: ps)) ++ rest =
          lbrace :: (dumpPairs (kv :: ps) ++ rbrace :: rest) := by
        rw [dumpVal]
        simp [List.cons_append, List.append_assoc]
      rw [harg, parseVal_obj_step, dropWs_dumpPairs kv ps (rbrace :: rest), hct,
          List.cons_append]
      dsimp only
      rw [if_neg (by decide), ← List.cons_append, ← hct, key]
termination_by v _ _ _ _ => sizeOf v

/-- Parsing a rendered non-empty item list up to its closing bracket
recovers the items. -/
theorem rtItems : ∀ (v : Json) (vs : List Json) (fuel : Nat) (rest : List Char),
    (dumpItems (v :: vs)).length + 1 < fuel →
    parseItems fuel (dumpItems (v :: vs) ++ ']' :: rest) = some (v :: vs, rest)
  | _, _, 0, _, hf => absurd hf (Nat.not_lt_zero _)
  | v, [], fuel + 1, rest, hf => by
      have hfe : (dumpVal v).length < fuel := by
        rw [dumpItems] at hf
        omega
      have hv := rtVal v fuel (']' :: rest) hfe rfl
      have harg : dumpItems [v] ++ ']' :: rest = dumpVal v ++ ']' :: rest := by
        rw [dumpItems]
      rw [parseItems_step, harg, hv]
      dsimp only
      rw [dropWs_cons (by decide)]
      rfl
  | v, v2 :: vs2, fuel + 1, rest, hf => by
      rw [dumpItems] at hf
      simp only [List.length_append, List.length_cons] at hf
      have hfe : (dumpVal v).length < fuel := by omega
      have hfi : (dumpItems (v2 :: vs2)).length + 1 < fuel := by omega
      have hv := rtVal v fuel
        (',' :: ' ' :: (dumpItems (v2 :: vs2) ++ ']' :: rest)) hfe rfl
      have key := rtItems v2 vs2 fuel rest hfi
      have harg : dumpItems (v :: v2 :: vs2) ++ ']' :: rest =
          dumpVal v ++ (',' :: ' ' :: (dumpItems (v2 :: vs2) ++ ']' :: rest)) := by
        rw [dumpItems]
        simp [List.cons_append, List.append_assoc]
      refine parseItems_after_comma fuel _
        (' ' :: (dumpItems (v2 :: vs2) ++ ']' :: rest)) v (v2 :: vs2) rest ?_ ?_
      · rw [harg]
        exact hv
      · rw [dropWs_space, dropWs_dumpItems v2 vs2 (']' :: rest)]
        exact key
termination_by v vs _ _ _ => sizeOf v + sizeOf vs

/-- Parsing a rendered non-empty member list up to its closing brace
recovers the members. -/
theorem rtPairs : ∀ (kv : String × Json) (ps : List (String × Json))
    (fuel : Nat) (rest : List Char),
    (dumpPairs (kv :: ps)).length + 1 < fuel →
    parsePairs fuel (dumpPairs (kv :: ps) ++ rbrace :: rest) = some (kv :: ps, rest)
  | _, _, 0, _, hf => absurd hf (Nat.not_lt_zero _)
  | (k, v), [], fuel + 1, rest, hf => by
      have hfe : (dumpVal v).length < fuel := by
        rw [dumpPairs] at hf
        simp only [List.length_append, List.length_cons] at hf
        omega
      have hv := rtVal v fuel (rbrace :: rest) hfe rfl
      have harg : dumpPairs [(k, v)] ++ rbrace :: rest =
          '"' :: (escString k ++ '"' :: (':' :: (' ' ::
            (dumpVal v ++ rbrace :: rest)))) := by
        rw [dumpPairs]
        simp [List.cons_append, List.append_assoc]
      rw [harg]
      refine parsePairs_after_last fuel _ _
        (' ' :: (dumpVal v ++ rbrace :: rest)) (rbrace :: rest) rest k v
        (parseStringBody_escString k _) rfl ?_ rfl
      rw [dropWs_space, dropWs_dumpVal v (rbrace :: rest)]
      exact hv
  | (k, v), p2 :: ps2, fuel + 1, rest, hf => by
      rw [dumpPairs] at hf
      simp only [List.length_append, List.length_cons] at hf
      have hfe : (dumpVal v).length < fuel := by omega
      have hfp : (dumpPairs (p2 :: ps2)).length + 1 < fuel := by omega
      have hv := rtVal v fuel
        (',' :: ' ' :: (dumpPairs (p2 :: ps2) ++ rbrace :: rest)) hfe rfl
      have key := rtPairs p2 ps2 fuel rest hfp
      have harg : dumpPairs ((k, v) :: p2 :: ps2) ++ rbrace :: rest =
          '"' :: (escString k ++ '"' :: (':' :: (' ' ::
            (dumpVal v ++ (',' :: ' ' ::
              (dumpPairs (p2 :: ps2) ++ rbrace :: rest)))))) := by
        rw [dumpPairs]
        simp [List.cons_append, List.append_assoc]
      rw [harg]
      refine parsePairs_after_comma fuel _ _
        (' ' :: (dumpVal v ++ (',' :: ' ' ::
          (dumpPairs (p2 :: ps2) ++ rbrace :: rest))))
        (',' :: ' ' :: (dumpPairs (p2 :: ps2) ++ rbrace :: rest))
        (' ' :: (dumpPairs (p2 :: ps2) ++ rbrace :: rest))
        k v (p2 :: ps2) rest
        (parseStringBody_escString k _) rfl ?_ rfl ?_
      · rw [dropWs_space, dropWs_dumpVal v
            (',' :: ' ' :: (dumpPairs (p2 :: ps2) ++ rbrace :: rest))]
        exact hv
      · rw [dropWs_space, dropWs_dumpPairs p2 ps2 (rbrace :: rest)]
        exact key
termination_by kv ps _ _ _ => sizeOf kv + sizeOf ps
end

/-- `json.loads` inverts `json.dumps` on every JSON value the programs
can build. -/
theorem loads_dumps (v : Json) : loads (dumps v) = some v := by
  unfold loads dumps jsonParse
  have h := rtVal v ((dumpVal v).length + 1) [] (by omega) rfl
  rw [List.append_nil] at h
  rw [show (⟨dumpVal v⟩ : String).toList = dumpVal v from rfl, h]
  rfl

/-- Decoding a rendered string array recovers it. -/
theorem decodeStrs_map (l : List String) :
    decodeStrs (l.map Json.str) = some l := by
  induction l with
  | nil => rfl
  | cons x xs ih => simp [decodeStrs, asStr, ih]

/-- Decoding a step's JSON object recovers the step. -/
theorem step_fromJson_toJson (s : WorkflowStep) :
    WorkflowStep.fromJson s.toJson = some s := by
  cases s
  simp +decide [WorkflowStep.fromJson, WorkflowStep.toJson, objGet, lookupKey,
    asInt, asStr, asBool, asArr, decodeStrs_map]

/-- Decoding a rendered step array recovers it. -/
theorem decodeSteps_map (l : List WorkflowStep) :
    decodeSteps (l.map WorkflowStep.toJson) = some l := by
  induction l with
  | nil => rfl
  | cons x xs ih => simp [decodeSteps, step_fromJson_toJson, ih]

/-- Decoding a workflow description's JSON object recovers it. -/
theorem wd_fromJson_toJson (w : WorkflowDescription) :
    WorkflowDescription.fromJson w.toJson = some w := by
  cases w
  simp +decide [WorkflowDescription.fromJson, WorkflowDescription.toJson,
    objGet, lookupKey, asBool, asStr, asArr, decodeSteps_map, decodeStrs_map]

/-! ## Claim C8 -/

/-- Claim C8: serializing any `WorkflowDescription` to its JSON text (as
done for the `workflow_json` column) and parsing that text back yields a
structure equal field-for-field to the original — the JSON value itself
round-trips unchanged, so the order of `workflow_steps` and of each
step's `inputs`/`outputs` sequences is preserved, and decoding the
fields reproduces the original record exactly. -/
theorem workflow_json_roundtrip (w : WorkflowDescription) :
    loadsWorkflow (dumpsWorkflow w) = some w ∧
    loads (dumpsWorkflow w) = some w.toJson := by
  unfold loadsWorkflow dumpsWorkflow
  rw [loads_dumps]
  exact ⟨by simp [wd_fromJson_toJson w], rfl⟩

end AshMady
